import Mathlib

/-!
Verification development for the SawitDB storage core.

This file gives a shallow embedding of the pager (`Pager.js`: 4 KiB page
I/O over a single file with an LRU page cache and bump allocation) and of
`SecurityManager.check`, and proves or refutes the specified properties.

Buffers are modelled as lists of bytes (`List Nat`), the database file as
a total function from page-id to page buffer (pages beyond the end of the
file read as all-zero, matching the EOF-swallowing read path), and the
JavaScript `Map` used for the page cache as an association list with the
exact `Map` ordering semantics: `set` of an existing key updates the value
in place keeping its position, `set` of a fresh key appends at the end,
`delete` removes the entry, and iteration order is insertion order (the
first entry is the least recently inserted).
-/

set_option autoImplicit false
set_option maxRecDepth 2000

namespace SawitDB

/-- Page size in bytes, `PAGE_SIZE = 4096` in `Pager.js`. -/
def PAGE_SIZE : Nat := 4096

/-- A byte buffer: a list of byte values. -/
abbrev Buffer := List Nat

/-- `Buffer.alloc(4096)`: a zero-filled 4 KiB page. -/
def zeroPage : Buffer := List.replicate PAGE_SIZE 0

/-- The little-endian byte decomposition of `val` into `n` bytes
(the bytes Node writes for `writeUIntLE(val, off, n)`). -/
def natLEBytes : Nat → Nat → List Nat
  | 0, _ => []
  | n + 1, val => val % 256 :: natLEBytes n (val / 256)

/-- Overwrite the bytes of `buf` starting at `off` with the list `bs`
(out-of-range positions are dropped, as `List.set` ignores them; the
callers below always stay in range). -/
def writeBytesLE (buf : Buffer) (off : Nat) : List Nat → Buffer
  | [] => buf
  | b :: bs => writeBytesLE (buf.set off b) (off + 1) bs

/-- Node `buf.readUIntLE(off, n)` (e.g. `readUInt32LE(off)` for `n = 4`):
assemble `n` bytes starting at `off` little-endian. -/
def readUIntLE (buf : Buffer) : Nat → Nat → Nat
  | 0, _ => 0
  | n + 1, off => buf.getD off 0 + 256 * readUIntLE buf n (off + 1)

/-- Node `buf.writeUIntLE(val, off, n)` (e.g. `writeUInt32LE(val, off)` for
`n = 4`): validates that `val` fits in `n` bytes and that the write stays
inside the buffer, throwing `ERR_OUT_OF_RANGE` (here: `none`) otherwise. -/
def writeUIntLE (buf : Buffer) (n val off : Nat) : Option Buffer :=
  if val < 256 ^ n ∧ off + n ≤ buf.length then
    some (writeBytesLE buf off (natLEBytes n val))
  else
    none

/-! ### JavaScript `Map` as an association list -/

/-- The page cache: `Map` from page-id to buffer, in insertion order. -/
abbrev Cache := List (Nat × Buffer)

/-- `Map.prototype.get`: value of the first entry with key `k`. -/
def mapGet (m : Cache) (k : Nat) : Option Buffer :=
  match m with
  | [] => none
  | (k', v) :: rest => if k' = k then some v else mapGet rest k

/-- `Map.prototype.set`: replace the value of an existing key in place
(keeping its position in the order), otherwise append at the end. -/
def mapSet (m : Cache) (k : Nat) (v : Buffer) : Cache :=
  match m with
  | [] => [(k, v)]
  | (k', v') :: rest => if k' = k then (k', v) :: rest else (k', v') :: mapSet rest k v

/-- `Map.prototype.delete`: remove the entry with key `k`. -/
def mapDelete (m : Cache) (k : Nat) : Cache :=
  match m with
  | [] => []
  | (k', v') :: rest => if k' = k then rest else (k', v') :: mapDelete rest k

/-! ### The pager state and its operations -/

/-- Overwrite one page of the file image. -/
def diskWrite (d : Nat → Buffer) (pageId : Nat) (buf : Buffer) : Nat → Buffer :=
  fun q => if q = pageId then buf else d q

/-- The state of a `Pager` instance: the file contents (`disk`, one buffer
per page-id, unwritten pages reading as zero), the page cache, the cache
cap (`cacheLimit`, 1000 in the constructor), and whether the file
descriptor is open (`fd !== null`). -/
structure Pager where
  disk : Nat → Buffer
  cache : Cache
  cacheLimit : Nat
  fdOpen : Bool

namespace Pager

/-- The header page `_initNewFile` writes: magic `WOWO` (bytes 87 79 87 79)
at offset 0, u32 total-pages = 1 at offset 4, u32 table count = 0 at
offset 8, rest zero. -/
def initHeaderPage : Buffer :=
  writeBytesLE
    (writeBytesLE
      (writeBytesLE zeroPage 0 [87, 79, 87, 79])
      4 (natLEBytes 4 1))
    8 (natLEBytes 4 0)

/-- `_open()`: if the file does not exist, create it and write the initial
header page; otherwise open it read-write as-is.  There is no magic check
on either path. -/
def openPager (fileExists : Bool) (fileDisk : Nat → Buffer) : Pager :=
  if fileExists then
    { disk := fileDisk, cache := [], cacheLimit := 1000, fdOpen := true }
  else
    { disk := diskWrite (fun _ => zeroPage) 0 initHeaderPage,
      cache := [], cacheLimit := 1000, fdOpen := true }

/-- A freshly initialized pager on a new file. -/
def freshPager : Pager := openPager false (fun _ => zeroPage)

/-- The eviction step at the end of a `readPage` miss: if the cache is
over the cap, delete the first key returned by `cache.keys().next()`
(the least recently used entry). -/
def evictIfOver (c : Cache) (cap : Nat) : Cache :=
  if c.length > cap then
    match c with
    | [] => c
    | (k, _) :: _ => mapDelete c k
  else c

/-- `readPage(pageId)`: on a cache hit, delete and re-insert the entry
(moving it to the MRU end) and return the cached buffer.  On a miss, read
the page from the file (reads past EOF leave the zero-filled buffer),
insert it into the cache, and if the cache now exceeds `cacheLimit`,
delete the first (least recently used) key. -/
def readPage (s : Pager) (pageId : Nat) : Buffer × Pager :=
  match mapGet s.cache pageId with
  | some buf =>
    (buf, { s with cache := mapSet (mapDelete s.cache pageId) pageId buf })
  | none =>
    let buf := s.disk pageId
    let c1 := mapSet s.cache pageId buf
    (buf, { s with cache := evictIfOver c1 s.cacheLimit })

/-- `writePage(pageId, buf)`: throws (`some` error message, state
unchanged) unless `buf` is exactly 4096 bytes; otherwise writes the page
to the file and `set`s the cache entry.  No eviction happens here. -/
def writePage (s : Pager) (pageId : Nat) (buf : Buffer) : Pager × Option String :=
  if buf.length ≠ PAGE_SIZE then
    (s, some "Buffer must be 4KB")
  else
    ({ s with disk := diskWrite s.disk pageId buf,
              cache := mapSet s.cache pageId buf }, none)

/-- `allocPage()`: read the header page, take `totalPages` from its u32 at
offset 4, use it as the new page-id, write `totalPages + 1` back into the
header (Node throws a `RangeError` if the incremented value no longer fits
in a u32), persist the header, then write a fresh data page (next = 0,
count = 0, free offset = 8) at the new id and return it.  The result is
the pager state at the point of return or throw, together with the
returned page-id or the error. -/
def allocPage (s : Pager) : Pager × Except String Nat :=
    let page0 := (s.readPage 0).1
    let s1 := (s.readPage 0).2
    let totalPages := readUIntLE page0 4 4
    let newPageId := totalPages
    let newTotal := totalPages + 1
    match writeUIntLE page0 4 newTotal 4 with
    | none => (s1, Except.error "RangeError")
    | some page0w =>
      match s1.writePage 0 page0w with
      | (s2, some e) => (s2, Except.error e)
      | (s2, none) =>
        match writeUIntLE zeroPage 4 0 0 with
        | none => (s2, Except.error "RangeError")
        | some np1 =>
          match writeUIntLE np1 2 0 4 with
          | none => (s2, Except.error "RangeError")
          | some np2 =>
            match writeUIntLE np2 2 8 6 with
            | none => (s2, Except.error "RangeError")
            | some newPage =>
              match s2.writePage newPageId newPage with
              | (s3, some e) => (s3, Except.error e)
              | (s3, none) => (s3, Except.ok newPageId)

/-- `close()`: if the file descriptor is open, close it and clear the
cache; otherwise do nothing. -/
def close (s : Pager) : Pager :=
  if s.fdOpen then { s with fdOpen := false, cache := [] } else s

/-- The initialized empty data page `allocPage` writes at the new id:
next page-id 0 (u32 at 0), slot count 0 (u16 at 4), free offset 8
(u16 at 6), rest zero. -/
def newDataPage : Buffer :=
  writeBytesLE
    (writeBytesLE
      (writeBytesLE zeroPage 0 (natLEBytes 4 0))
      4 (natLEBytes 2 0))
    6 (natLEBytes 2 8)

end Pager

/-! ### SecurityManager -/

/-- One entry of the `_permissions` list. -/
structure Perm where
  user : String
  table : String
  action : String

/-- The predicate inside `this.permissions.some(...)` in
`SecurityManager.check`: the permission names this user, and its table is
the target table or the wildcard, and its action is the requested action
or `all`. -/
def permAllows (p : Perm) (u t a : String) : Bool :=
  p.user == u && (p.table == t || p.table == "*") && (p.action == a || p.action == "all")

namespace SecurityManager

/-- `SecurityManager.check(user, table, action)`: allow immediately when
`user` is falsy (absent or the empty string; local mode) or is the
superuser `admin`; otherwise allow if some stored permission matches, and
throw an access-denied error if none does.  `user = none` models a missing
argument; `some ""` is the other falsy string value. -/
def check (perms : List Perm) (user : Option String) (table action : String) :
    Except String Bool :=
  match user with
  | none => Except.ok true
  | some u =>
    if u = "" then Except.ok true
    else if u = "admin" then Except.ok true
    else if perms.any (fun p => permAllows p u table action) then Except.ok true
    else Except.error ("POS RONDA: Akses Ditolak! User " ++ u ++ " tidak punya izin "
      ++ action ++ " di lahan " ++ table)

end SecurityManager

/-! ### Lemmas about the `Map` model -/

theorem mapGet_mapSet_self (m : Cache) (k : Nat) (v : Buffer) :
    mapGet (mapSet m k v) k = some v := by
  induction m with
  | nil => simp [mapSet, mapGet]
  | cons hd tl ih =>
    obtain ⟨k', v'⟩ := hd
    by_cases h : k' = k
    · simp [mapSet, mapGet, h]
    · simp [mapSet, mapGet, h, ih]

theorem mapGet_mapSet_ne (m : Cache) (k k' : Nat) (v : Buffer) (h : k' ≠ k) :
    mapGet (mapSet m k v) k' = mapGet m k' := by
  have hks : k ≠ k' := Ne.symm h
  induction m with
  | nil => simp [mapSet, mapGet, hks]
  | cons hd tl ih =>
    obtain ⟨k₀, v₀⟩ := hd
    by_cases h₀ : k₀ = k
    · subst h₀
      simp [mapSet, mapGet, hks]
    · simp only [mapSet, if_neg h₀, mapGet]
      by_cases h₁ : k₀ = k'
      · simp [h₁]
      · simp [h₁, ih]

theorem mapGet_mapDelete_ne (m : Cache) (k k' : Nat) (h : k' ≠ k) :
    mapGet (mapDelete m k) k' = mapGet m k' := by
  have hks : k ≠ k' := Ne.symm h
  induction m with
  | nil => simp [mapDelete]
  | cons hd tl ih =>
    obtain ⟨k₀, v₀⟩ := hd
    by_cases h₀ : k₀ = k
    · subst h₀
      simp [mapDelete, mapGet, hks]
    · simp only [mapDelete, if_neg h₀, mapGet]
      by_cases h₁ : k₀ = k'
      · simp [h₁]
      · simp [h₁, ih]

theorem mapSet_length_le (m : Cache) (k : Nat) (v : Buffer) :
    (mapSet m k v).length ≤ m.length + 1 := by
  induction m with
  | nil => simp [mapSet]
  | cons hd tl ih =>
    obtain ⟨k₀, v₀⟩ := hd
    by_cases h₀ : k₀ = k
    · simp [mapSet, h₀]
    · simp only [mapSet, if_neg h₀, List.length_cons]
      omega

theorem mapSet_length_of_absent (m : Cache) (k : Nat) (v : Buffer)
    (h : mapGet m k = none) : (mapSet m k v).length = m.length + 1 := by
  induction m with
  | nil => simp [mapSet]
  | cons hd tl ih =>
    obtain ⟨k₀, v₀⟩ := hd
    by_cases h₀ : k₀ = k
    · simp [mapGet, h₀] at h
    · simp only [mapGet, if_neg h₀] at h
      simp only [mapSet, if_neg h₀, List.length_cons, ih h]

theorem mapDelete_length_of_present (m : Cache) (k : Nat) (v : Buffer)
    (h : mapGet m k = some v) : (mapDelete m k).length + 1 = m.length := by
  induction m with
  | nil => simp [mapGet] at h
  | cons hd tl ih =>
    obtain ⟨k₀, v₀⟩ := hd
    by_cases h₀ : k₀ = k
    · simp [mapDelete, h₀]
    · simp only [mapGet, if_neg h₀] at h
      simp only [mapDelete, if_neg h₀, List.length_cons, ih h]

/-! ### Lemmas about the buffer model -/

theorem writeBytesLE_length (bs : List Nat) (buf : Buffer) (off : Nat) :
    (writeBytesLE buf off bs).length = buf.length := by
  induction bs generalizing buf off with
  | nil => rfl
  | cons b bs ih => simp [writeBytesLE, ih, List.length_set]

theorem natLEBytes_length (n val : Nat) : (natLEBytes n val).length = n := by
  induction n generalizing val with
  | zero => rfl
  | succ n ih => simp [natLEBytes, ih]

theorem getD_set_eq (l : List Nat) (i v : Nat) (h : i < l.length) :
    (l.set i v).getD i 0 = v := by
  induction l generalizing i with
  | nil => simp at h
  | cons a l ih =>
    cases i with
    | zero => rfl
    | succ i =>
      simp only [List.set, List.getD, List.getElem?_cons_succ]
      exact ih i (by simpa using h)

theorem getD_set_ne (l : List Nat) (i j v : Nat) (h : i ≠ j) :
    (l.set i v).getD j 0 = l.getD j 0 := by
  induction l generalizing i j with
  | nil => simp [List.set]
  | cons a l ih =>
    cases i with
    | zero =>
      cases j with
      | zero => exact absurd rfl h
      | succ j => rfl
    | succ i =>
      cases j with
      | zero => rfl
      | succ j =>
        simp only [List.set, List.getD, List.getElem?_cons_succ]
        exact ih i j (fun hh => h (by rw [hh]))

theorem writeBytesLE_getD_lt (bs : List Nat) (buf : Buffer) (off j : Nat)
    (h : j < off) : (writeBytesLE buf off bs).getD j 0 = buf.getD j 0 := by
  induction bs generalizing buf off with
  | nil => rfl
  | cons b bs ih =>
    simp only [writeBytesLE]
    rw [ih (buf.set off b) (off + 1) (by omega), getD_set_ne _ _ _ _ (by omega)]

theorem readUIntLE_writeBytesLE (n : Nat) (buf : Buffer) (off val : Nat)
    (hval : val < 256 ^ n) (hoff : off + n ≤ buf.length) :
    readUIntLE (writeBytesLE buf off (natLEBytes n val)) n off = val := by
  induction n generalizing buf off val with
  | zero =>
    simp only [Nat.pow_zero, Nat.lt_one_iff] at hval
    simp [readUIntLE, hval]
  | succ n ih =>
    simp only [natLEBytes, writeBytesLE, readUIntLE]
    rw [writeBytesLE_getD_lt _ _ _ _ (by omega),
        getD_set_eq _ _ _ (by omega),
        ih (buf.set off (val % 256)) (off + 1) (val / 256)
          (by
            have h256 : (0 : Nat) < 256 := by norm_num
            rw [Nat.div_lt_iff_lt_mul h256]
            calc val < 256 ^ (n + 1) := hval
              _ = 256 ^ n * 256 := by ring
            )
          (by simp [List.length_set]; omega)]
    exact Nat.mod_add_div val 256

theorem zeroPage_length : zeroPage.length = PAGE_SIZE := by
  simp [zeroPage]

theorem initHeaderPage_length : Pager.initHeaderPage.length = PAGE_SIZE := by
  simp [Pager.initHeaderPage, writeBytesLE_length, zeroPage_length]

theorem newDataPage_length : Pager.newDataPage.length = PAGE_SIZE := by
  simp [Pager.newDataPage, writeBytesLE_length, zeroPage_length]

/-! ### Membership and key-distinctness lemmas for the cache -/

theorem mapGet_eq_some_mem (m : Cache) (k : Nat) (b : Buffer)
    (h : mapGet m k = some b) : (k, b) ∈ m := by
  induction m with
  | nil => simp [mapGet] at h
  | cons hd tl ih =>
    obtain ⟨k₀, v₀⟩ := hd
    by_cases h₀ : k₀ = k
    · subst h₀
      simp only [mapGet, if_true, eq_self_iff_true] at h
      rw [Option.some_inj] at h
      subst h
      exact List.mem_cons_self _ _
    · simp only [mapGet, if_neg h₀] at h
      exact List.mem_cons_of_mem _ (ih h)

theorem mem_mapSet (m : Cache) (k : Nat) (v : Buffer) (p : Nat × Buffer)
    (h : p ∈ mapSet m k v) : p = (k, v) ∨ p ∈ m := by
  induction m with
  | nil => simpa [mapSet] using h
  | cons hd tl ih =>
    obtain ⟨k₀, v₀⟩ := hd
    by_cases h₀ : k₀ = k
    · subst h₀
      simp only [mapSet, if_true, eq_self_iff_true, List.mem_cons] at h
      rcases h with h | h
      · exact Or.inl h
      · exact Or.inr (List.mem_cons_of_mem _ h)
    · simp only [mapSet, if_neg h₀, List.mem_cons] at h
      rcases h with h | h
      · exact Or.inr (by simp [h])
      · rcases ih h with h' | h'
        · exact Or.inl h'
        · exact Or.inr (List.mem_cons_of_mem _ h')

theorem mem_mapDelete (m : Cache) (k : Nat) (p : Nat × Buffer)
    (h : p ∈ mapDelete m k) : p ∈ m := by
  induction m with
  | nil => simp [mapDelete] at h
  | cons hd tl ih =>
    obtain ⟨k₀, v₀⟩ := hd
    by_cases h₀ : k₀ = k
    · simp only [mapDelete, if_pos h₀] at h
      exact List.mem_cons_of_mem _ h
    · simp only [mapDelete, if_neg h₀, List.mem_cons] at h
      rcases h with h | h
      · simp [h]
      · exact List.mem_cons_of_mem _ (ih h)

theorem keys_mapSet_subset (m : Cache) (k k' : Nat) (v : Buffer)
    (h : k' ∈ (mapSet m k v).map Prod.fst) : k' ∈ m.map Prod.fst ∨ k' = k := by
  rcases List.mem_map.mp h with ⟨p, hp, hpk⟩
  rcases mem_mapSet m k v p hp with h' | h'
  · subst h'
    exact Or.inr hpk.symm
  · exact Or.inl (List.mem_map.mpr ⟨p, h', hpk⟩)

theorem keys_mapDelete_subset (m : Cache) (k k' : Nat)
    (h : k' ∈ (mapDelete m k).map Prod.fst) : k' ∈ m.map Prod.fst := by
  rcases List.mem_map.mp h with ⟨p, hp, hpk⟩
  exact List.mem_map.mpr ⟨p, mem_mapDelete m k p hp, hpk⟩

theorem nodup_mapSet (m : Cache) (k : Nat) (v : Buffer)
    (h : (m.map Prod.fst).Nodup) : ((mapSet m k v).map Prod.fst).Nodup := by
  induction m with
  | nil => simp [mapSet]
  | cons hd tl ih =>
    obtain ⟨k₀, v₀⟩ := hd
    simp only [List.map_cons, List.nodup_cons] at h
    by_cases h₀ : k₀ = k
    · subst h₀
      simpa [mapSet, List.nodup_cons] using h
    · simp only [mapSet, if_neg h₀, List.map_cons, List.nodup_cons]
      refine ⟨fun hc => ?_, ih h.2⟩
      rcases keys_mapSet_subset tl k k₀ v hc with h' | h'
      · exact h.1 h'
      · exact h₀ h'

theorem nodup_mapDelete (m : Cache) (k : Nat)
    (h : (m.map Prod.fst).Nodup) : ((mapDelete m k).map Prod.fst).Nodup := by
  induction m with
  | nil => simp [mapDelete]
  | cons hd tl ih =>
    obtain ⟨k₀, v₀⟩ := hd
    simp only [List.map_cons, List.nodup_cons] at h
    by_cases h₀ : k₀ = k
    · simp only [mapDelete, if_pos h₀]
      exact h.2
    · simp only [mapDelete, if_neg h₀, List.map_cons, List.nodup_cons]
      exact ⟨fun hc => h.1 (keys_mapDelete_subset tl k k₀ hc), ih h.2⟩

theorem mem_mapSet_nodup (m : Cache) (k : Nat) (v : Buffer) (p : Nat × Buffer)
    (hnd : (m.map Prod.fst).Nodup) (h : p ∈ mapSet m k v) :
    p = (k, v) ∨ (p ∈ m ∧ p.1 ≠ k) := by
  induction m with
  | nil =>
    simp only [mapSet, List.mem_singleton] at h
    exact Or.inl h
  | cons hd tl ih =>
    obtain ⟨k₀, v₀⟩ := hd
    simp only [List.map_cons, List.nodup_cons] at hnd
    by_cases h₀ : k₀ = k
    · subst h₀
      simp only [mapSet, if_true, eq_self_iff_true, List.mem_cons] at h
      rcases h with h | h
      · exact Or.inl h
      · refine Or.inr ⟨List.mem_cons_of_mem _ h, fun hk => hnd.1 ?_⟩
        rw [← hk]
        exact List.mem_map.mpr ⟨p, h, rfl⟩
    · simp only [mapSet, if_neg h₀, List.mem_cons] at h
      rcases h with h | h
      · exact Or.inr ⟨by simp [h], by simp [h, h₀]⟩
      · rcases ih hnd.2 h with h' | h'
        · exact Or.inl h'
        · exact Or.inr ⟨List.mem_cons_of_mem _ h'.1, h'.2⟩

/-! ### Pager invariants -/

/-- All file pages are exactly 4096 bytes long. -/
def DiskLen (s : Pager) : Prop := ∀ k, (s.disk k).length = PAGE_SIZE

/-- The cache has no duplicate page-ids (as a JavaScript `Map` cannot)
and every cached buffer equals the corresponding file page (writes go to
the file and the cache together, so the cache never diverges). -/
def GoodCache (s : Pager) : Prop :=
  (s.cache.map Prod.fst).Nodup ∧ ∀ p ∈ s.cache, p.2 = s.disk p.1

/-- Well-formedness used by the `allocPage` specification: every file page
and every cached buffer has length 4096. -/
def WF (s : Pager) : Prop :=
  DiskLen s ∧ ∀ p ∈ s.cache, (p.2 : Buffer).length = PAGE_SIZE

theorem good_wf (s : Pager) (hg : GoodCache s) (hd : DiskLen s) : WF s :=
  ⟨hd, fun p hp => by rw [hg.2 p hp]; exact hd p.1⟩

/-! ### Characterization of the pager operations -/

theorem readPage_hit (s : Pager) (pid : Nat) (buf : Buffer)
    (h : mapGet s.cache pid = some buf) :
    s.readPage pid = (buf, { s with cache := mapSet (mapDelete s.cache pid) pid buf }) := by
  simp [Pager.readPage, h]

theorem readPage_miss (s : Pager) (pid : Nat) (h : mapGet s.cache pid = none) :
    s.readPage pid = (s.disk pid,
      { s with cache := Pager.evictIfOver (mapSet s.cache pid (s.disk pid)) s.cacheLimit }) := by
  simp [Pager.readPage, h]

theorem evict_subset (c : Cache) (cap : Nat) (p : Nat × Buffer)
    (h : p ∈ Pager.evictIfOver c cap) : p ∈ c := by
  rw [Pager.evictIfOver.eq_def] at h
  split at h
  · split at h
    · exact h
    · exact mem_mapDelete _ _ _ h
  · exact h

theorem evict_nodup (c : Cache) (cap : Nat) (h : (c.map Prod.fst).Nodup) :
    ((Pager.evictIfOver c cap).map Prod.fst).Nodup := by
  rw [Pager.evictIfOver.eq_def]
  split
  · split
    · exact h
    · exact nodup_mapDelete _ _ h
  · exact h

theorem evict_length_le (c : Cache) (cap : Nat) :
    (Pager.evictIfOver c cap).length ≤ max cap (c.length - 1) := by
  cases c with
  | nil =>
    simp [Pager.evictIfOver]
  | cons hd tl =>
    obtain ⟨k, v⟩ := hd
    rw [Pager.evictIfOver.eq_def]
    split
    · simp only [mapDelete, if_pos rfl]
      simp
    · rename_i hnot
      simp only [List.length_cons, gt_iff_lt, not_lt] at hnot
      exact le_max_of_le_left hnot

theorem readPage_snd_disk (s : Pager) (pid : Nat) :
    ((s.readPage pid).2).disk = s.disk := by
  rcases h : mapGet s.cache pid with _ | buf
  · rw [readPage_miss s pid h]
  · rw [readPage_hit s pid buf h]

theorem readPage_snd_cacheLimit (s : Pager) (pid : Nat) :
    ((s.readPage pid).2).cacheLimit = s.cacheLimit := by
  rcases h : mapGet s.cache pid with _ | buf
  · rw [readPage_miss s pid h]
  · rw [readPage_hit s pid buf h]

theorem readPage_fst_of_good (s : Pager) (pid : Nat) (hg : GoodCache s) :
    (s.readPage pid).1 = s.disk pid := by
  rcases h : mapGet s.cache pid with _ | buf
  · rw [readPage_miss s pid h]
  · rw [readPage_hit s pid buf h]
    exact hg.2 _ (mapGet_eq_some_mem _ _ _ h)

theorem readPage_good (s : Pager) (pid : Nat) (hg : GoodCache s) :
    GoodCache ((s.readPage pid).2) := by
  rcases h : mapGet s.cache pid with _ | buf
  · rw [readPage_miss s pid h]
    refine ⟨evict_nodup _ _ (nodup_mapSet _ _ _ hg.1), ?_⟩
    intro p hp
    rcases mem_mapSet _ _ _ _ (evict_subset _ _ _ hp) with h' | h'
    · subst h'
      rfl
    · exact hg.2 p h'
  · rw [readPage_hit s pid buf h]
    refine ⟨nodup_mapSet _ _ _ (nodup_mapDelete _ _ hg.1), ?_⟩
    intro p hp
    rcases mem_mapSet _ _ _ _ hp with h' | h'
    · subst h'
      exact hg.2 _ (mapGet_eq_some_mem _ _ _ h)
    · exact hg.2 p (mem_mapDelete _ _ _ h')

theorem readPage_snd_diskLen (s : Pager) (pid : Nat) (hd : DiskLen s) :
    DiskLen ((s.readPage pid).2) := by
  intro k
  rw [readPage_snd_disk]
  exact hd k

theorem readPage_wf (s : Pager) (pid : Nat) (hw : WF s) :
    WF ((s.readPage pid).2) := by
  refine ⟨readPage_snd_diskLen s pid hw.1, ?_⟩
  rcases h : mapGet s.cache pid with _ | buf
  · rw [readPage_miss s pid h]
    intro p hp
    rcases mem_mapSet _ _ _ _ (evict_subset _ _ _ hp) with h' | h'
    · subst h'
      exact hw.1 pid
    · exact hw.2 p h'
  · rw [readPage_hit s pid buf h]
    intro p hp
    rcases mem_mapSet _ _ _ _ hp with h' | h'
    · subst h'
      exact hw.2 _ (mapGet_eq_some_mem _ _ _ h)
    · exact hw.2 p (mem_mapDelete _ _ _ h')

theorem readPage_fst_length (s : Pager) (pid : Nat) (hw : WF s) :
    ((s.readPage pid).1).length = PAGE_SIZE := by
  rcases h : mapGet s.cache pid with _ | buf
  · rw [readPage_miss s pid h]
    exact hw.1 pid
  · rw [readPage_hit s pid buf h]
    exact hw.2 _ (mapGet_eq_some_mem _ _ _ h)

theorem writePage_eq_ok (s : Pager) (pid : Nat) (b : Buffer)
    (hb : b.length = PAGE_SIZE) :
    s.writePage pid b =
      ({ s with disk := diskWrite s.disk pid b, cache := mapSet s.cache pid b }, none) := by
  simp [Pager.writePage, hb]

theorem writePage_eq_err (s : Pager) (pid : Nat) (b : Buffer)
    (hb : b.length ≠ PAGE_SIZE) :
    s.writePage pid b = (s, some "Buffer must be 4KB") := by
  simp [Pager.writePage, hb]

theorem writePage_fst_good (s : Pager) (pid : Nat) (b : Buffer) (hg : GoodCache s) :
    GoodCache ((s.writePage pid b).1) := by
  by_cases hb : b.length = PAGE_SIZE
  · rw [writePage_eq_ok s pid b hb]
    refine ⟨nodup_mapSet _ _ _ hg.1, ?_⟩
    intro p hp
    rcases mem_mapSet_nodup _ _ _ _ hg.1 hp with h' | ⟨hm, hne⟩
    · subst h'
      simp [diskWrite]
    · show p.2 = diskWrite s.disk pid b p.1
      rw [diskWrite, if_neg hne]
      exact hg.2 p hm
  · rw [writePage_eq_err s pid b hb]
    exact hg

theorem writePage_fst_diskLen (s : Pager) (pid : Nat) (b : Buffer) (hd : DiskLen s) :
    DiskLen ((s.writePage pid b).1) := by
  by_cases hb : b.length = PAGE_SIZE
  · rw [writePage_eq_ok s pid b hb]
    intro k
    show (diskWrite s.disk pid b k).length = PAGE_SIZE
    rw [diskWrite]
    split
    · exact hb
    · exact hd k
  · rw [writePage_eq_err s pid b hb]
    exact hd

theorem writeUIntLE_eq_some (buf : Buffer) (n val off : Nat)
    (h1 : val < 256 ^ n) (h2 : off + n ≤ buf.length) :
    writeUIntLE buf n val off = some (writeBytesLE buf off (natLEBytes n val)) := by
  simp [writeUIntLE, h1, h2]

theorem writeUIntLE_eq_none (buf : Buffer) (n val off : Nat)
    (h1 : ¬ val < 256 ^ n) :
    writeUIntLE buf n val off = none := by
  simp [writeUIntLE, h1]

theorem allocPage_ok (s : Pager)
    (hlen : ((s.readPage 0).1).length = PAGE_SIZE)
    (hT : readUIntLE ((s.readPage 0).1) 4 4 + 1 < 2 ^ 32) :
    s.allocPage =
      ({ (s.readPage 0).2 with
          disk := diskWrite
              (diskWrite ((s.readPage 0).2).disk 0
                (writeBytesLE ((s.readPage 0).1) 4
                  (natLEBytes 4 (readUIntLE ((s.readPage 0).1) 4 4 + 1))))
              (readUIntLE ((s.readPage 0).1) 4 4) Pager.newDataPage,
          cache := mapSet
              (mapSet ((s.readPage 0).2).cache 0
                (writeBytesLE ((s.readPage 0).1) 4
                  (natLEBytes 4 (readUIntLE ((s.readPage 0).1) 4 4 + 1))))
              (readUIntLE ((s.readPage 0).1) 4 4) Pager.newDataPage },
        Except.ok (readUIntLE ((s.readPage 0).1) 4 4)) := by
  have h256 : (2 : Nat) ^ 32 = 256 ^ 4 := by norm_num
  have e1 := writeUIntLE_eq_some ((s.readPage 0).1) 4
    (readUIntLE ((s.readPage 0).1) 4 4 + 1) 4 (h256 ▸ hT)
    (by rw [hlen]; norm_num [PAGE_SIZE])
  have e2 := writeUIntLE_eq_some zeroPage 4 0 0 (by norm_num)
    (by rw [zeroPage_length]; norm_num [PAGE_SIZE])
  have e3 := writeUIntLE_eq_some (writeBytesLE zeroPage 0 (natLEBytes 4 0)) 2 0 4
    (by norm_num) (by rw [writeBytesLE_length, zeroPage_length]; norm_num [PAGE_SIZE])
  have e4 := writeUIntLE_eq_some
    (writeBytesLE (writeBytesLE zeroPage 0 (natLEBytes 4 0)) 4 (natLEBytes 2 0)) 2 8 6
    (by norm_num)
    (by rw [writeBytesLE_length, writeBytesLE_length, zeroPage_length]; norm_num [PAGE_SIZE])
  simp [Pager.allocPage, e1, e2, e3, e4, Pager.writePage, writeBytesLE_length, hlen,
    zeroPage_length, Pager.newDataPage]

theorem allocPage_err (s : Pager)
    (hT : ¬ readUIntLE ((s.readPage 0).1) 4 4 + 1 < 2 ^ 32) :
    s.allocPage = ((s.readPage 0).2, Except.error "RangeError") := by
  have h256 : (2 : Nat) ^ 32 = 256 ^ 4 := by norm_num
  have e1 := writeUIntLE_eq_none ((s.readPage 0).1) 4
    (readUIntLE ((s.readPage 0).1) 4 4 + 1) 4 (h256 ▸ hT)
  simp [Pager.allocPage, e1]

theorem diskLen_fresh : DiskLen Pager.freshPager := by
  intro k
  by_cases hk : k = 0
  · subst hk
    show (diskWrite (fun _ => zeroPage) 0 Pager.initHeaderPage 0).length = PAGE_SIZE
    simpa [diskWrite] using initHeaderPage_length
  · show (diskWrite (fun _ => zeroPage) 0 Pager.initHeaderPage k).length = PAGE_SIZE
    simpa [diskWrite, hk] using zeroPage_length

theorem wf_fresh : WF Pager.freshPager := by
  refine ⟨diskLen_fresh, ?_⟩
  intro p hp
  simp [Pager.freshPager, Pager.openPager] at hp

/-! ## Claim C2 -/

/-- Claim C2: for every page-id `p` and every 4096-byte buffer `b`, a
`readPage(p)` performed after a completed `writePage(p, b)` on the same
open pager returns exactly the bytes of `b` (the write put `b` in the
cache, and the following read hits that entry). -/
theorem claim_c2_read_after_write (s : Pager) (pid : Nat) (b : Buffer)
    (hb : b.length = PAGE_SIZE) :
    (((s.writePage pid b).1).readPage pid).1 = b := by
  rw [writePage_eq_ok s pid b hb]
  have h : mapGet (mapSet s.cache pid b) pid = some b := mapGet_mapSet_self _ _ _
  rw [readPage_hit _ pid b h]

/-- Witness for C2 at a concrete pager, page-id and buffer. -/
theorem claim_c2_witness :
    (((Pager.freshPager.writePage 3 zeroPage).1).readPage 3).1 = zeroPage :=
  claim_c2_read_after_write Pager.freshPager 3 zeroPage zeroPage_length

/-! ## Claim C8 -/

/-- Claim C8: `writePage(p, b)` raises exactly when `b` is not 4096 bytes
long, and in that case neither the file nor the cache is modified (the
length check precedes every write). -/
theorem claim_c8_writePage_size_check (s : Pager) (pid : Nat) (b : Buffer) :
    ((s.writePage pid b).2.isSome ↔ b.length ≠ PAGE_SIZE) ∧
    (b.length ≠ PAGE_SIZE → (s.writePage pid b).1 = s) := by
  by_cases hb : b.length = PAGE_SIZE
  · rw [writePage_eq_ok s pid b hb]
    simp [hb]
  · rw [writePage_eq_err s pid b hb]
    simp [hb]

/-- Witness for C8 at a concrete pager and (empty, hence invalid) buffer. -/
theorem claim_c8_witness :
    ((Pager.freshPager.writePage 0 []).2.isSome ↔ ([] : Buffer).length ≠ PAGE_SIZE) ∧
    (([] : Buffer).length ≠ PAGE_SIZE →
      (Pager.freshPager.writePage 0 []).1 = Pager.freshPager) :=
  claim_c8_writePage_size_check Pager.freshPager 0 []

/-! ## Claim C9 -/

/-- Claim C9: on an open pager, `close()` closes the file descriptor and
clears the cache, and every further `close()` is a no-op leaving the
state unchanged (the `fd !== null` guard makes the second call fall
through). -/
theorem claim_c9_close_idempotent (s : Pager) (h : s.fdOpen = true) :
    (s.close).fdOpen = false ∧ (s.close).cache = [] ∧ (s.close).close = s.close := by
  simp [Pager.close, h]

/-- Witness for C9 at a concrete open pager. -/
theorem claim_c9_witness :
    (Pager.freshPager.close).fdOpen = false ∧ (Pager.freshPager.close).cache = [] ∧
    (Pager.freshPager.close).close = Pager.freshPager.close :=
  claim_c9_close_idempotent Pager.freshPager rfl

/-! ## Claim C10 -/

/-- Claim C10: `SecurityManager.check` returns true for a falsy user
(absent or empty; local mode) and for the superuser `admin`, independently
of the stored permissions; for every other user it returns true exactly
when some stored permission matches the user with the given table or the
wildcard and the given action or `all`, and throws an access-denied error
otherwise. -/
theorem claim_c10_security_check (perms : List Perm) (t a : String) :
    SecurityManager.check perms none t a = Except.ok true ∧
    SecurityManager.check perms (some "") t a = Except.ok true ∧
    SecurityManager.check perms (some "admin") t a = Except.ok true ∧
    ∀ u : String, u ≠ "" → u ≠ "admin" →
      (SecurityManager.check perms (some u) t a = Except.ok true ↔
        ∃ p ∈ perms, permAllows p u t a = true) ∧
      (¬ (∃ p ∈ perms, permAllows p u t a = true) →
        SecurityManager.check perms (some u) t a =
          Except.error ("POS RONDA: Akses Ditolak! User " ++ u ++ " tidak punya izin "
            ++ a ++ " di lahan " ++ t)) := by
  refine ⟨rfl, by simp [SecurityManager.check], by simp [SecurityManager.check], ?_⟩
  intro u h1 h2
  by_cases hp : perms.any (fun p => permAllows p u t a) = true
  · have hex := List.any_eq_true.mp hp
    have hc : SecurityManager.check perms (some u) t a = Except.ok true := by
      simp [SecurityManager.check, h1, h2, hp]
    rw [hc]
    exact ⟨⟨fun _ => hex, fun _ => rfl⟩, fun hno => absurd hex hno⟩
  · have hnex : ¬ ∃ p ∈ perms, permAllows p u t a = true :=
      fun hex => hp (List.any_eq_true.mpr hex)
    have hc : SecurityManager.check perms (some u) t a =
        Except.error ("POS RONDA: Akses Ditolak! User " ++ u ++ " tidak punya izin "
          ++ a ++ " di lahan " ++ t) := by
      simp [SecurityManager.check, h1, h2, hp]
    rw [hc]
    exact ⟨⟨fun hcontra => absurd hcontra (by simp), fun hex => absurd hex hnex⟩,
      fun _ => rfl⟩

/-- Witness for C10: a stored permission for user alice on table kebun
with action read lets alice read kebun. -/
theorem claim_c10_witness :
    SecurityManager.check [⟨"alice", "kebun", "read"⟩] (some "alice") "kebun" "read" =
      Except.ok true :=
  ((claim_c10_security_check [⟨"alice", "kebun", "read"⟩] "kebun" "read").2.2.2 "alice"
    (by decide) (by decide)).1.mpr
    ⟨⟨"alice", "kebun", "read"⟩, by simp, by decide⟩

/-! ## Claim C3 -/

/-- Counterexample to C3 as stated: opening an existing file whose first
four bytes are all zero (not the ASCII magic `WOWO` = 87 79 87 79) raises
no error at all — `_open` performs no magic check — and the returned
pager is usable: `readPage(0)` happily returns the non-magic page. -/
theorem claim_c3_counterexample :
    List.take 4 ((Pager.openPager true (fun _ => zeroPage)).disk 0) ≠ [87, 79, 87, 79] ∧
    (Pager.openPager true (fun _ => zeroPage)).fdOpen = true ∧
    ((Pager.openPager true (fun _ => zeroPage)).readPage 0).1 = zeroPage := by
  refine ⟨by decide, rfl, rfl⟩

/-- Claim C3 (amended): `open(path)` on an existing database file opens it
read-write without reading or validating the magic bytes; it returns a
usable pager — every `readPage(p)` yields the file's bytes for page `p` —
regardless of the file's first four bytes, and no CorruptFile error
exists. -/
theorem claim_c3_open_no_magic_check (d : Nat → Buffer) (pid : Nat) :
    (Pager.openPager true d).fdOpen = true ∧
    ((Pager.openPager true d).readPage pid).1 = d pid := by
  exact ⟨rfl, rfl⟩

/-! ## Claim C4 -/

/-- A pager whose cache holds pages 1 and 2, page 1 being the least
recently used (first in insertion order). -/
def c4State : Pager :=
  { disk := fun _ => zeroPage,
    cache := [(1, zeroPage), (2, zeroPage)],
    cacheLimit := 1000,
    fdOpen := true }

/-- C4 evaluated at the failing input: `writePage(1, …)` on a pager whose
cache order is `[1, 2]` leaves the key order `[1, 2]` — JavaScript
`Map.prototype.set` keeps an existing key at its old position, so the
written page is NOT promoted to the MRU end (which would be `[2, 1]`),
contradicting the claim and the source comment on the write path. -/
theorem claim_c4_writePage_no_mru_promotion :
    (((c4State.writePage 1 zeroPage).1).cache).map Prod.fst = [1, 2] ∧
    ([1, 2] : List Nat) ≠ [2, 1] := by
  rw [writePage_eq_ok c4State 1 zeroPage zeroPage_length]
  refine ⟨?_, by decide⟩
  show (mapSet [(1, zeroPage), (2, zeroPage)] 1 zeroPage).map Prod.fst = [1, 2]
  simp [mapSet]

/-! ## Claim C5 -/

/-- A pager with an empty cache and a cache cap of 1. -/
def c5State : Pager :=
  { disk := fun _ => zeroPage, cache := [], cacheLimit := 1, fdOpen := true }

/-- Counterexample to C5 as stated: two `writePage`s of distinct page-ids
leave 2 entries in a cache whose cap is 1 — `writePage` inserts into the
cache without ever evicting, so a pager operation can make the cache
exceed the cap. -/
theorem claim_c5_counterexample :
    ((((c5State.writePage 0 zeroPage).1).writePage 1 zeroPage).1).cache.length = 2 ∧
    ((((c5State.writePage 0 zeroPage).1).writePage 1 zeroPage).1).cacheLimit = 1 ∧
    ¬ ((((c5State.writePage 0 zeroPage).1).writePage 1 zeroPage).1).cache.length ≤ 1 := by
  have e1 := writePage_eq_ok c5State 0 zeroPage zeroPage_length
  have e2 := writePage_eq_ok ((c5State.writePage 0 zeroPage).1) 1 zeroPage zeroPage_length
  rw [e2, e1]
  refine ⟨?_, rfl, ?_⟩ <;> simp [c5State, mapSet]

/-- Claim C5 (amended): only `readPage` enforces the cap — when an
insertion on a miss would make the cache exceed the cap it evicts the LRU
entry, so a `readPage` never leaves the cache larger than the cap unless
it already was (its size stays at most the maximum of the cap and the
previous size); `writePage` (and through it `allocPage`) inserts without
evicting and can grow the cache beyond the cap. -/
theorem claim_c5_readPage_respects_cap (s : Pager) (pid : Nat) :
    ((s.readPage pid).2).cache.length ≤ max s.cacheLimit s.cache.length := by
  rcases h : mapGet s.cache pid with _ | buf
  · rw [readPage_miss s pid h]
    have h1 := evict_length_le (mapSet s.cache pid (s.disk pid)) s.cacheLimit
    have h2 := mapSet_length_of_absent s.cache pid (s.disk pid) h
    show (Pager.evictIfOver (mapSet s.cache pid (s.disk pid)) s.cacheLimit).length ≤ _
    rw [h2] at h1
    simpa using h1
  · rw [readPage_hit s pid buf h]
    have hd := mapDelete_length_of_present s.cache pid buf h
    have hs := mapSet_length_le (mapDelete s.cache pid) pid buf
    have hmax : s.cache.length ≤ max s.cacheLimit s.cache.length := le_max_right _ _
    show (mapSet (mapDelete s.cache pid) pid buf).length ≤ _
    omega

/-! ## Claim C6 -/

/-- Counterexample to C6 as stated: on a freshly initialized file the
header records 1 total page, yet `readPage(5)` does not fail with any
error — it silently returns a zero-filled 4096-byte buffer (the EOF read
leaves the allocated buffer untouched). -/
theorem claim_c6_counterexample :
    readUIntLE (Pager.freshPager.disk 0) 4 4 = 1 ∧
    (Pager.freshPager.readPage 5).1 = zeroPage ∧
    zeroPage.length = 4096 := by
  refine ⟨by decide, rfl, zeroPage_length⟩

/-- Claim C6 (amended): `readPage(p)` of an uncached page-id never raises:
it returns the file's bytes at page `p`, which for a page-id at or past
the end of the file is the zero-filled buffer; no InvalidPageId error
exists in the code. -/
theorem claim_c6_read_past_end_returns_zeros (s : Pager) (pid : Nat)
    (h : mapGet s.cache pid = none) :
    (s.readPage pid).1 = s.disk pid := by
  rw [readPage_miss s pid h]

/-- Witness for C6 at a concrete pager and page-id. -/
theorem claim_c6_witness :
    (Pager.freshPager.readPage 7).1 = Pager.freshPager.disk 7 :=
  claim_c6_read_past_end_returns_zeros Pager.freshPager 7 rfl

/-! ## Claim C1 -/

/-- A pager whose cached header page carries the total-pages value
`0xFFFFFFFF` (bytes 255 255 255 255 at offset 4). -/
def c1Bad : Pager :=
  { disk := fun _ => zeroPage,
    cache := [(0, writeBytesLE zeroPage 4 [255, 255, 255, 255])],
    cacheLimit := 1000,
    fdOpen := true }

/-- A pager whose header page reads a total-pages value of 0 (all-zero
page 0, e.g. after `writePage(0, Buffer.alloc(4096))`). -/
def c1Zero : Pager :=
  { disk := fun _ => zeroPage, cache := [], cacheLimit := 1000, fdOpen := true }

/-- Counterexample to C1 as stated (over every pager state): with header
total-pages `T = 0xFFFFFFFF`, `writeUInt32LE(T+1, 4)` throws a RangeError
and `allocPage` fails instead of returning `T`; and with `T = 0` the new
page-id is 0, so the initialized data page overwrites the header page and
the persisted total-pages field is 524288 (the free-offset byte 8 landing
at offset 6), not `T + 1 = 1`. -/
theorem claim_c1_counterexample :
    (c1Bad.allocPage).2 = Except.error "RangeError" ∧
    (c1Zero.allocPage).2 = Except.ok 0 ∧
    readUIntLE (((c1Zero.allocPage).1).disk 0) 4 4 ≠
      readUIntLE ((c1Zero.readPage 0).1) 4 4 + 1 := by
  have hbad : readUIntLE ((c1Bad.readPage 0).1) 4 4 = 4294967295 := by
    rw [readPage_hit c1Bad 0 (writeBytesLE zeroPage 4 [255, 255, 255, 255]) rfl]
    decide
  have herr := allocPage_err c1Bad (by rw [hbad]; decide)
  have hfst : (c1Zero.readPage 0).1 = zeroPage := by
    rw [readPage_miss c1Zero 0 rfl]
    rfl
  have hlen0 : ((c1Zero.readPage 0).1).length = PAGE_SIZE := by
    rw [hfst]; exact zeroPage_length
  have hT0 : readUIntLE ((c1Zero.readPage 0).1) 4 4 = 0 := by
    rw [hfst]; decide
  have hok := allocPage_ok c1Zero hlen0 (by rw [hT0]; decide)
  refine ⟨by rw [herr], ?_, ?_⟩
  · rw [hok, hT0]
  · rw [hok, hT0]
    simp only [diskWrite]
    rw [if_true]
    decide

/-- Claim C1 (amended): for every well-formed pager state (4096-byte
pages) whose header total-pages value `T` satisfies `1 ≤ T` and
`T + 1 < 2^32`, `allocPage()` returns `T` as the new page-id, persists a
header whose total-pages field equals `T + 1`, and writes at the new
page-id an initialized empty data page with next-page-id 0, slot count 0
and free offset 8. -/
theorem claim_c1_allocPage (s : Pager) (hw : WF s)
    (h1 : 1 ≤ readUIntLE ((s.readPage 0).1) 4 4)
    (h2 : readUIntLE ((s.readPage 0).1) 4 4 + 1 < 2 ^ 32) :
    (s.allocPage).2 = Except.ok (readUIntLE ((s.readPage 0).1) 4 4) ∧
    readUIntLE (((s.allocPage).1).disk 0) 4 4 = readUIntLE ((s.readPage 0).1) 4 4 + 1 ∧
    ((s.allocPage).1).disk (readUIntLE ((s.readPage 0).1) 4 4) = Pager.newDataPage ∧
    readUIntLE Pager.newDataPage 4 0 = 0 ∧
    readUIntLE Pager.newDataPage 2 4 = 0 ∧
    readUIntLE Pager.newDataPage 2 6 = 8 := by
  have hlen := readPage_fst_length s 0 hw
  have hok := allocPage_ok s hlen h2
  have hne : (0 : Nat) ≠ readUIntLE ((s.readPage 0).1) 4 4 := by omega
  refine ⟨by rw [hok], ?_, ?_, by decide, by decide, by decide⟩
  · rw [hok]
    show readUIntLE (diskWrite (diskWrite ((s.readPage 0).2).disk 0
        (writeBytesLE ((s.readPage 0).1) 4
          (natLEBytes 4 (readUIntLE ((s.readPage 0).1) 4 4 + 1))))
        (readUIntLE ((s.readPage 0).1) 4 4) Pager.newDataPage 0) 4 4 = _
    simp only [diskWrite]
    rw [if_neg hne, if_true]
    exact readUIntLE_writeBytesLE 4 ((s.readPage 0).1) 4 _
      (by
        have h256 : (2 : Nat) ^ 32 = 256 ^ 4 := by norm_num
        exact h256 ▸ h2)
      (by rw [hlen]; norm_num [PAGE_SIZE])
  · rw [hok]
    show diskWrite (diskWrite ((s.readPage 0).2).disk 0
        (writeBytesLE ((s.readPage 0).1) 4
          (natLEBytes 4 (readUIntLE ((s.readPage 0).1) 4 4 + 1))))
        (readUIntLE ((s.readPage 0).1) 4 4) Pager.newDataPage
        (readUIntLE ((s.readPage 0).1) 4 4) = _
    simp only [diskWrite]
    rw [if_true]

/-- Witness for C1 at the freshly initialized pager, where `T = 1`. -/
theorem claim_c1_witness :
    (Pager.freshPager.allocPage).2 =
      Except.ok (readUIntLE ((Pager.freshPager.readPage 0).1) 4 4) :=
  (claim_c1_allocPage Pager.freshPager wf_fresh (by decide) (by decide)).1

/-! ## Claim C7 -/

/-- Ghost history update for an `allocPage` step: if the call returned a
page-id, the highest page-id ever allocated becomes the maximum of the
old one and the returned id; a failed call allocates nothing.  The
initial header page counts as allocation 0. -/
def allocGhost (s : Pager) (h : Nat) : Nat :=
  match (s.allocPage).2 with
  | Except.ok n => max h n
  | Except.error _ => h

/-- Pager states reachable exactly as claim C7 states it: from a freshly
initialized file, closed under `allocPage`, `readPage` and (unrestricted)
`writePage`.  The `Nat` is the highest page-id ever allocated. -/
inductive ReachableFull : Pager → Nat → Prop where
  | init : ReachableFull Pager.freshPager 0
  | readStep (s : Pager) (h pid : Nat) :
      ReachableFull s h → ReachableFull ((s.readPage pid).2) h
  | writeStep (s : Pager) (h pid : Nat) (b : Buffer) :
      ReachableFull s h → ReachableFull ((s.writePage pid b).1) h
  | allocStep (s : Pager) (h : Nat) :
      ReachableFull s h → ReachableFull ((s.allocPage).1) (allocGhost s h)

/-- Amended reachability: as `ReachableFull`, but `writePage` is only
applied to nonzero page-ids, so that clients never overwrite the header
page directly. -/
inductive ReachableNZ : Pager → Nat → Prop where
  | init : ReachableNZ Pager.freshPager 0
  | readStep (s : Pager) (h pid : Nat) :
      ReachableNZ s h → ReachableNZ ((s.readPage pid).2) h
  | writeStep (s : Pager) (h pid : Nat) (b : Buffer) (hpid : pid ≠ 0) :
      ReachableNZ s h → ReachableNZ ((s.writePage pid b).1) h
  | allocStep (s : Pager) (h : Nat) :
      ReachableNZ s h → ReachableNZ ((s.allocPage).1) (allocGhost s h)

/-- The inductive invariant for C7: the cache is a well-formed mirror of
the file, all pages are 4096 bytes, and the header's total-pages field is
the highest allocated page-id plus one. -/
def HeaderInv (s : Pager) (h : Nat) : Prop :=
  GoodCache s ∧ DiskLen s ∧ readUIntLE (s.disk 0) 4 4 = h + 1

theorem writePage_fst_disk_ne (s : Pager) (pid : Nat) (b : Buffer) (q : Nat)
    (hq : q ≠ pid) : ((s.writePage pid b).1).disk q = s.disk q := by
  by_cases hb : b.length = PAGE_SIZE
  · rw [writePage_eq_ok s pid b hb]
    show diskWrite s.disk pid b q = s.disk q
    rw [diskWrite, if_neg hq]
  · rw [writePage_eq_err s pid b hb]

theorem goodCache_fresh : GoodCache Pager.freshPager := by
  constructor
  · show ((Pager.freshPager.cache).map Prod.fst).Nodup
    simp [Pager.freshPager, Pager.openPager]
  · intro p hp
    simp [Pager.freshPager, Pager.openPager] at hp

theorem headerInv_preserved (s : Pager) (h : Nat) (hr : ReachableNZ s h) :
    HeaderInv s h := by
  induction hr with
  | init =>
    refine ⟨goodCache_fresh, diskLen_fresh, by decide⟩
  | readStep s h pid hr ih =>
    exact ⟨readPage_good s pid ih.1, readPage_snd_diskLen s pid ih.2.1,
      by rw [readPage_snd_disk]; exact ih.2.2⟩
  | writeStep s h pid b hpid hr ih =>
    exact ⟨writePage_fst_good s pid b ih.1, writePage_fst_diskLen s pid b ih.2.1,
      by rw [writePage_fst_disk_ne s pid b 0 (Ne.symm hpid)]; exact ih.2.2⟩
  | allocStep s h hr ih =>
    obtain ⟨hg, hd, hhdr⟩ := ih
    have hw : WF s := good_wf s hg hd
    have hlen : ((s.readPage 0).1).length = PAGE_SIZE := readPage_fst_length s 0 hw
    have hfst : (s.readPage 0).1 = s.disk 0 := readPage_fst_of_good s 0 hg
    have hT : readUIntLE ((s.readPage 0).1) 4 4 = h + 1 := by rw [hfst]; exact hhdr
    by_cases hlt : readUIntLE ((s.readPage 0).1) 4 4 + 1 < 2 ^ 32
    · have hok := allocPage_ok s hlen hlt
      have hp0wlen : (writeBytesLE ((s.readPage 0).1) 4
          (natLEBytes 4 (readUIntLE ((s.readPage 0).1) 4 4 + 1))).length = PAGE_SIZE := by
        rw [writeBytesLE_length]; exact hlen
      have hstate : (s.allocPage).1 =
          (((((s.readPage 0).2).writePage 0 (writeBytesLE ((s.readPage 0).1) 4
            (natLEBytes 4 (readUIntLE ((s.readPage 0).1) 4 4 + 1)))).1).writePage
            (readUIntLE ((s.readPage 0).1) 4 4) Pager.newDataPage).1 := by
        rw [writePage_eq_ok ((s.readPage 0).2) 0 _ hp0wlen]
        rw [writePage_eq_ok _ _ _ newDataPage_length]
        rw [hok]
      have hgh : allocGhost s h = h + 1 := by
        rw [allocGhost]
        rw [hok]
        rw [hT]
        exact Nat.max_eq_right (Nat.le_succ h)
      rw [hgh]
      have hne : (0 : Nat) ≠ readUIntLE ((s.readPage 0).1) 4 4 := by omega
      refine ⟨?_, ?_, ?_⟩
      · rw [hstate]
        exact writePage_fst_good _ _ _ (writePage_fst_good _ _ _ (readPage_good s 0 hg))
      · rw [hstate]
        exact writePage_fst_diskLen _ _ _
          (writePage_fst_diskLen _ _ _ (readPage_snd_diskLen s 0 hd))
      · rw [hok]
        show readUIntLE (diskWrite (diskWrite ((s.readPage 0).2).disk 0
            (writeBytesLE ((s.readPage 0).1) 4
              (natLEBytes 4 (readUIntLE ((s.readPage 0).1) 4 4 + 1))))
            (readUIntLE ((s.readPage 0).1) 4 4) Pager.newDataPage 0) 4 4 = h + 1 + 1
        simp only [diskWrite]
        rw [if_neg hne, if_true]
        rw [readUIntLE_writeBytesLE 4 ((s.readPage 0).1) 4 _
          (by
            have h256 : (2 : Nat) ^ 32 = 256 ^ 4 := by norm_num
            exact h256 ▸ hlt)
          (by rw [hlen]; norm_num [PAGE_SIZE])]
        omega
    · have herr := allocPage_err s hlt
      have hgh : allocGhost s h = h := by
        rw [allocGhost]
        rw [herr]
      have hstate : (s.allocPage).1 = (s.readPage 0).2 := by rw [herr]
      rw [hgh, hstate]
      exact ⟨readPage_good s 0 hg, readPage_snd_diskLen s 0 hd,
        by rw [readPage_snd_disk]; exact hhdr⟩

/-- Counterexample to C7 as stated (closure under unrestricted
`writePage`): one `writePage(0, Buffer.alloc(4096))` step from the fresh
file reaches a state whose header total-pages field is 0, not the highest
allocated page-id (0, the initial header page) plus 1. -/
theorem claim_c7_counterexample :
    ReachableFull ((Pager.freshPager.writePage 0 zeroPage).1) 0 ∧
    readUIntLE (((Pager.freshPager.writePage 0 zeroPage).1).disk 0) 4 4 ≠ 0 + 1 := by
  refine ⟨ReachableFull.writeStep _ 0 0 zeroPage ReachableFull.init, ?_⟩
  rw [writePage_eq_ok Pager.freshPager 0 zeroPage zeroPage_length]
  show readUIntLE (diskWrite Pager.freshPager.disk 0 zeroPage 0) 4 4 ≠ 0 + 1
  simp only [diskWrite]
  rw [if_true]
  decide

/-- Claim C7 (amended): in every pager state reachable from a freshly
initialized file (total-pages = 1) under `allocPage`, `readPage`, and
`writePage` to nonzero page-ids, the header's total-pages field equals
the highest page-id ever allocated plus 1 (the initial header page
counting as allocation 0). -/
theorem claim_c7_header_counts_pages (s : Pager) (h : Nat) (hr : ReachableNZ s h) :
    readUIntLE (s.disk 0) 4 4 = h + 1 :=
  (headerInv_preserved s h hr).2.2

/-- Witness for C7 at the freshly initialized pager. -/
theorem claim_c7_witness :
    readUIntLE (Pager.freshPager.disk 0) 4 4 = 0 + 1 :=
  claim_c7_header_counts_pages Pager.freshPager 0 ReachableNZ.init

end SawitDB
